import Mathlib

/-!
Shallow embedding of the crafting-api repository's core list/pagination/CRUD
pipeline, and proofs about it.

Embedded components (each definition is translated from the named Go source):
* slug generation (`internal/service/item_service.go`, `generateSlug`;
  the crafting-method copy in `part_001` is character-identical);
* list-parameter parsing (`internal/app/pagination/pagination.go`,
  `ParseListParams`, together with the gorilla/schema decoding behaviour it
  relies on);
* pagination response building (`pagination.go`, `NewPaginatedResponse`);
* the store-side sort-string resolution (`part_005` `ListItems`,
  `part_004` `ListCraftingMethods` — identical logic);
* the service-side partial-update merge (`item_service.go`, `UpdateItem`);
* `JSONNullString` JSON unmarshalling (`part_002`).

Strings are modelled as `List Char`; `String` values enter through `.toList`.
Go's `strings.ToLower` is modelled on the ASCII range (the claims under
study only exercise ASCII input, and the proved invariants do not depend on
how non-ASCII letters lowercase).
-/

namespace CraftingApi

/-! ### Slug generation (item_service.go lines 74-80) -/

/-- Go regexp `\s` character class: `[\t\n\f\r ]`. -/
def goIsSpace (c : Char) : Bool :=
  c = '\t' || c = '\n' || c = '\x0c' || c = '\r' || c = ' '

/-- ASCII lowercasing, modelling `strings.ToLower` on the ASCII range. -/
def goToLower (c : Char) : Char :=
  if 'A' ≤ c ∧ c ≤ 'Z' then Char.ofNat (c.toNat + 32) else c

/-- `whitespaceRegex.ReplaceAllString(slug, "-")` with pattern `\s+`:
each maximal run of whitespace becomes a single hyphen. `prevSpace`
records whether the previous character belonged to a whitespace run. -/
def collapseWSAux (prevSpace : Bool) : List Char → List Char
  | [] => []
  | c :: cs =>
    if goIsSpace c then
      if prevSpace then collapseWSAux true cs
      else '-' :: collapseWSAux true cs
    else c :: collapseWSAux false cs

def collapseWS (l : List Char) : List Char := collapseWSAux false l

/-- Characters kept by the pass that deletes every match of `[^a-z0-9]+`. -/
def isLowerAlnum (c : Char) : Bool :=
  ('a' ≤ c && c ≤ 'z') || ('0' ≤ c && c ≤ '9')

/-- `nonAlphanumericRegex.ReplaceAllString(slug, "")` with pattern
`[^a-z0-9]+`: delete every character outside `[a-z0-9]`. -/
def stripNonAlnum (l : List Char) : List Char := l.filter isLowerAlnum

/-- `strings.Trim(slug, "-")`: drop leading and trailing hyphens. -/
def trimHyphens (l : List Char) : List Char :=
  ((l.dropWhile (· = '-')).reverse.dropWhile (· = '-')).reverse

/-- `generateSlug` from item_service.go (and the identical
`generateCraftingMethodSlug` from part_001): lowercase, collapse whitespace
runs to hyphens, delete every character outside `[a-z0-9]`, trim hyphens. -/
def generateSlug (name : List Char) : List Char :=
  trimHyphens (stripNonAlnum (collapseWS (name.map goToLower)))

example : generateSlug "Iron Ore".toList = "ironore".toList := by decide

/-! ### Store-side sort resolution (part_005 `ListItems` lines 187-206;
part_004 `ListCraftingMethods` has the identical logic) -/

/-- `strings.Split(s, sep)` for a single-character separator: all substrings
between occurrences of `sep`, empties included. -/
def splitOnChar (sep : Char) : List Char → List (List Char)
  | [] => [[]]
  | c :: cs =>
    match splitOnChar sep cs with
    | [] => [[]]
    | h :: t => if c = sep then [] :: h :: t else (c :: h) :: t

/-- The fixed whitelist `allowedSortFields` from `ListItems`. -/
def allowedSortField (f : List Char) : Bool :=
  f = "name".toList || f = "slug".toList ||
  f = "created_at".toList || f = "updated_at".toList

/-- The sort-resolution block of `ListItems`/`ListCraftingMethods`:
starting from the defaults `("created_at", "DESC")`, when the sort string is
non-empty it is split on `'_'`; only a two-part split whose first part is
whitelisted changes the field, and the second part (lowercased) selects
ASC/DESC, anything else keeping the default DESC. Returns
`(sortField, sortOrder)` as fed to `ORDER BY`. -/
def resolveSort (sort : List Char) : List Char × List Char :=
  if sort = [] then ("created_at".toList, "DESC".toList)
  else
    let parts := splitOnChar '_' sort
    if parts.length = 2 then
      let f := parts.headI
      if allowedSortField f then
        let dir := (parts.getI 1).map goToLower
        if dir = "asc".toList then (f, "ASC".toList)
        else (f, "DESC".toList)
      else ("created_at".toList, "DESC".toList)
    else ("created_at".toList, "DESC".toList)

example : resolveSort "name_asc".toList = ("name".toList, "ASC".toList) := by decide
example : resolveSort "created_at_asc".toList = ("created_at".toList, "DESC".toList) := by decide
example : resolveSort "created_at_desc".toList = ("created_at".toList, "DESC".toList) := by decide

/-! ### List-parameter parsing (pagination.go `ParseListParams` lines 96-137)

The query string is a list of key/value pairs; for a non-slice struct field
gorilla/schema uses the last value supplied for the key, skips empty
values, and reports a conversion failure as a decode error. -/

def DefaultPage : Int := 1
def DefaultPerPage : Int := 15
def MaxPerPage : Int := 100

/-- `domain.ItemFilters` (part_003): pointer fields, `none` = filter absent. -/
structure ItemFilters where
  name : Option (List Char)
  isRawMaterial : Option Bool
  deriving Repr, DecidableEq

/-- `pagination.ListParams[ItemFilters]` after `ParseListParams`. -/
structure ListParams where
  page : Int
  perPage : Int
  sort : List Char
  filters : ItemFilters
  deriving Repr, DecidableEq

/-- The two error returns of `ParseListParams`: "error decoding base
parameters" and "error decoding filter parameters". -/
inductive ParseErr where
  | baseDecode
  | filterDecode
  deriving Repr, DecidableEq

abbrev Query := List (List Char × List Char)

/-- All values a query supplies for a key, in order (`url.Values` entry). -/
def queryValues (q : Query) (k : List Char) : List (List Char) :=
  (q.filter (fun p => p.1 = k)).map Prod.snd

/-- gorilla/schema's choice of value for a non-slice field: the last one. -/
def lookupQ (q : Query) (k : List Char) : Option (List Char) :=
  (queryValues q k).getLast?

def digitVal (c : Char) : Option Nat :=
  if '0' ≤ c ∧ c ≤ '9' then some (c.toNat - 48) else none

def parseDigits : List Char → Option Nat
  | [] => none
  | l => l.foldl (fun acc c => acc.bind fun n => (digitVal c).map (10 * n + ·)) (some 0)

/-- `strconv.ParseInt(s, 10, 0)`: optional sign, then a non-empty run of
decimal digits and nothing else; a value outside the 64-bit `int` range is
a range error (Go's `ErrRange`, surfaced by the decoder as a conversion
failure). -/
def goParseInt (s : List Char) : Option Int :=
  match s with
  | '+' :: rest => (parseDigits rest).bind fun n =>
      if (n : Int) ≤ 9223372036854775807 then some (n : Int) else none
  | '-' :: rest => (parseDigits rest).bind fun n =>
      if (n : Int) ≤ 9223372036854775808 then some (-(n : Int)) else none
  | _ => (parseDigits s).bind fun n =>
      if (n : Int) ≤ 9223372036854775807 then some (n : Int) else none

/-- `strconv.ParseBool`: the fixed set of accepted spellings. -/
def goParseBool (s : List Char) : Option Bool :=
  if s = "1".toList ∨ s = "t".toList ∨ s = "T".toList ∨
     s = "TRUE".toList ∨ s = "true".toList ∨ s = "True".toList then some true
  else if s = "0".toList ∨ s = "f".toList ∨ s = "F".toList ∨
     s = "FALSE".toList ∨ s = "false".toList ∨ s = "False".toList then some false
  else none

/-- Decoding of one `int` struct field by gorilla/schema: key absent or
value empty leaves the pre-set default; a non-numeric value is a
conversion error, surfaced by `ParseListParams` as its base-decode error. -/
def decodeIntField (q : Query) (key : List Char) (dflt : Int) : Except ParseErr Int :=
  match lookupQ q key with
  | none => .ok dflt
  | some v =>
    if v = [] then .ok dflt
    else match goParseInt v with
      | none => .error .baseDecode
      | some n => .ok n

/-- Decoding of the `sort` string field: absent or empty keeps `""`. -/
def decodeSortField (q : Query) : List Char :=
  match lookupQ q "sort".toList with
  | none => []
  | some v => v

/-- Decoding of `ItemFilters`: `name` is a `*string` (absent/empty → nil),
`is_raw_material` a `*bool` whose unconvertible values are the
filter-decode error of `ParseListParams`. -/
def decodeItemFilters (q : Query) : Except ParseErr ItemFilters :=
  let name :=
    match lookupQ q "name".toList with
    | none => none
    | some v => if v = [] then none else some v
  match lookupQ q "is_raw_material".toList with
  | none => .ok ⟨name, none⟩
  | some v =>
    if v = [] then .ok ⟨name, none⟩
    else match goParseBool v with
      | none => .error .filterDecode
      | some b => .ok ⟨name, some b⟩

/-- The decoded-but-not-yet-clamped contents of `ParseListParams`'s
`baseParams` and `filters` locals (defaults pre-set, decode applied). -/
structure RawParams where
  page : Int
  perPage : Int
  sort : List Char
  filters : ItemFilters
  deriving Repr, DecidableEq

/-- The two `decoder.Decode` calls of `ParseListParams`, in source order
(base parameters first, then filters), each propagating its error. -/
def rawParseListParams (q : Query) : Except ParseErr RawParams := do
  let page ← decodeIntField q "page".toList DefaultPage
  let perPage ← decodeIntField q "per_page".toList DefaultPerPage
  let sort := decodeSortField q
  let filters ← decodeItemFilters q
  return ⟨page, perPage, sort, filters⟩

/-- The validation/clamping block at the end of `ParseListParams`. -/
def clampParams (r : RawParams) : ListParams where
  page := if r.page ≤ 0 then DefaultPage else r.page
  perPage :=
    if r.perPage ≤ 0 then DefaultPerPage
    else if r.perPage > MaxPerPage then MaxPerPage else r.perPage
  sort := r.sort
  filters := r.filters

/-- `ParseListParams[domain.ItemFilters]`: decode, then clamp. -/
def parseListParams (q : Query) : Except ParseErr ListParams :=
  (rawParseListParams q).map clampParams

example : parseListParams [("page".toList, "abc".toList)] = .error .baseDecode := rfl
example : parseListParams [("per_page".toList, "200".toList)] =
    .ok ⟨1, 100, [], ⟨none, none⟩⟩ := rfl
example : parseListParams [("page".toList, "0".toList), ("is_raw_material".toList, "true".toList)] =
    .ok ⟨1, 15, [], ⟨none, some true⟩⟩ := rfl
example : parseListParams [("is_raw_material".toList, "yes".toList)] = .error .filterDecode := rfl

/-! ### Store offset computation (part_005 `ListItems` line 209;
part_004 `ListCraftingMethods` alike):
`offset := uint64((params.Page - 1) * params.PerPage)`. `params.Page` and
`params.PerPage` are Go `int`s — 64-bit on the targeted platforms — so the
subtraction and the multiplication wrap at 2^64 in two's complement. -/

/-- Two's-complement 64-bit wrap: the value a Go `int` holds after an
arithmetic step whose exact result is `x`. -/
def wrap64 (x : Int) : Int :=
  (x + 9223372036854775808) % 18446744073709551616 - 9223372036854775808

/-- The signed value of `(params.Page - 1) * params.PerPage` as the store
computes it in 64-bit `int` arithmetic, before the `uint64` conversion. -/
def storeOffsetInt (page perPage : Int) : Int :=
  wrap64 (wrap64 (page - 1) * perPage)

example : storeOffsetInt 2 15 = 15 := rfl
example : storeOffsetInt 9223372036854775807 100 = -200 := rfl

/-! ### Pagination response builder (pagination.go `NewPaginatedResponse`
lines 46-85). Only `len(data)` matters to the metadata, so the builder is
embedded over the data length. `From`/`To` are named `fromIdx`/`toIdx`
(`from` is reserved in Lean). -/

/-- The metadata fields of `PaginatedResponse[T]`. -/
structure PaginatedResponseMeta where
  total : Int
  perPage : Int
  currentPage : Int
  lastPage : Int
  fromIdx : Int
  toIdx : Int
  deriving Repr, DecidableEq

/-- `int(math.Ceil(float64(a) / float64(b)))` for `b > 0`: exact ceiling
division (the float computation is exact for the int64 ranges in play). -/
def goCeilDiv (a b : Int) : Int := (a + b - 1) / b

/-- The `if page <= 0 { page = DefaultPage }` normalization. -/
def normPage (page : Int) : Int := if page ≤ 0 then DefaultPage else page

/-- The `if perPage <= 0 { ... }` then `if perPage > MaxPerPage { ... }`
normalization. -/
def normPerPage (perPage : Int) : Int :=
  if perPage ≤ 0 then DefaultPerPage
  else if perPage > MaxPerPage then MaxPerPage else perPage

/-- `NewPaginatedResponse(data, total, page, perPage)`: normalize page and
perPage, compute `lastPage`, clamp the page to it, and derive from/to. -/
def newPaginatedResponse (dataLen : Nat) (total page perPage : Int) :
    PaginatedResponseMeta :=
  let page := normPage page
  let perPage := normPerPage perPage
  let lastPage :=
    if 0 < total ∧ 0 < perPage then goCeilDiv total perPage
    else if page = 1 then 1 else 0
  let page := if page > lastPage ∧ 0 < lastPage then lastPage else page
  let fromIdx := if 0 < total ∧ 0 < dataLen then (page - 1) * perPage + 1 else 0
  let toIdx := if 0 < total ∧ 0 < dataLen then fromIdx + dataLen - 1 else 0
  { total := total, perPage := perPage, currentPage := page,
    lastPage := lastPage, fromIdx := fromIdx, toIdx := toIdx }

example : newPaginatedResponse 5 12 2 5 = ⟨12, 5, 2, 3, 6, 10⟩ := rfl
example : newPaginatedResponse 0 0 1 15 = ⟨0, 15, 1, 1, 0, 0⟩ := rfl
example : newPaginatedResponse 0 0 3 15 = ⟨0, 15, 3, 0, 0, 0⟩ := rfl
example : newPaginatedResponse 0 10 9 5 = ⟨10, 5, 2, 2, 0, 0⟩ := rfl

/-! ### `JSONNullString` (part_002) and the partial-update merge
(item_service.go `UpdateItem` lines 141-165) -/

/-- `sql.NullString` / the payload of `domain.JSONNullString`: a string plus
a validity flag (`valid = false` encodes SQL/JSON null). -/
structure NullString where
  str : List Char
  valid : Bool
  deriving Repr, DecidableEq

/-- The Go zero value of `JSONNullString` — what `encoding/json` leaves in a
struct field whose key is absent from the JSON object. -/
def jsonNullStringZero : NullString := ⟨[], false⟩

/-- A JSON value as far as `JSONNullString.UnmarshalJSON` can distinguish:
null, a string, or anything else. -/
inductive JsonValue where
  | null
  | str (s : List Char)
  | other
  deriving Repr, DecidableEq

/-- `JSONNullString.UnmarshalJSON` (part_002 lines 26-44): JSON null clears
the value, a JSON string sets it valid, anything else is an error. -/
def unmarshalJSONNullString (data : JsonValue) : Except (List Char) NullString :=
  match data with
  | .null => .ok ⟨[], false⟩
  | .str s => .ok ⟨s, true⟩
  | .other => .error "JSONNullString: value must be a string or null".toList

/-- `domain.Item` (part_003/part_004), timestamps as abstract numbers. -/
structure Item where
  id : Nat
  name : List Char
  slug : List Char
  isRawMaterial : Bool
  description : NullString
  imageURL : NullString
  createdAt : Nat
  updatedAt : Nat
  deriving Repr, DecidableEq

/-- `service.UpdateItemRequest`: pointer fields for name and the flag,
`JSONNullString` values for the nullable strings. -/
structure UpdateItemRequest where
  name : Option (List Char)
  isRawMaterial : Option Bool
  description : NullString
  imageURL : NullString
  deriving Repr, DecidableEq

/-- The merge block of `UpdateItem` (steps 2 of the service): field-by-field
comparison against the current values, regenerating the slug when the name
changes, and tracking whether anything changed. -/
def mergeItem (existing : Item) (req : UpdateItemRequest) : Item × Bool :=
  let (item, updated) :=
    match req.name with
    | some n =>
      if n ≠ existing.name then
        ({ existing with name := n, slug := generateSlug n }, true)
      else (existing, false)
    | none => (existing, false)
  let (item, updated) :=
    match req.isRawMaterial with
    | some b =>
      if b ≠ item.isRawMaterial then ({ item with isRawMaterial := b }, true)
      else (item, updated)
    | none => (item, updated)
  let (item, updated) :=
    if req.description ≠ item.description then
      ({ item with description := req.description }, true)
    else (item, updated)
  let (item, updated) :=
    if req.imageURL ≠ item.imageURL then
      ({ item with imageURL := req.imageURL }, true)
    else (item, updated)
  (item, updated)

/-- What `UpdateItem` does after a successful fetch of the existing item:
either it returns the existing item without calling the store's update
(`noWrite`), or it sends the merged item to the store (`write`). -/
inductive UpdateOutcome where
  | noWrite (item : Item)
  | write (item : Item)
  deriving Repr, DecidableEq

/-- Steps 2-3 of `UpdateItem`: merge, and skip the store call when nothing
changed (`if !updated { return existingItem, nil }`). -/
def updateItemService (existing : Item) (req : UpdateItemRequest) : UpdateOutcome :=
  let (merged, updated) := mergeItem existing req
  if updated then .write merged else .noWrite existing

/-! ### Helper lemmas about the slug character classes -/

lemma char_le_iff_toNat (a b : Char) :
    a ≤ b ↔ a.val.toBitVec.toNat ≤ b.val.toBitVec.toNat := by
  simp [Char.le_def, UInt32.le_def, BitVec.le_def]

lemma goToLower_of_isLowerAlnum {c : Char} (h : isLowerAlnum c = true) :
    goToLower c = c := by
  have e1 : 'a'.val.toBitVec.toNat = 97 := rfl
  have e2 : '0'.val.toBitVec.toNat = 48 := rfl
  have e3 : '9'.val.toBitVec.toNat = 57 := rfl
  have e4 : 'A'.val.toBitVec.toNat = 65 := rfl
  have e5 : 'Z'.val.toBitVec.toNat = 90 := rfl
  rw [goToLower, if_neg]
  rintro ⟨g1, g2⟩
  rw [char_le_iff_toNat] at g1 g2
  simp only [isLowerAlnum, Bool.or_eq_true, Bool.and_eq_true, decide_eq_true_eq,
    char_le_iff_toNat] at h
  omega

lemma not_goIsSpace_of_isLowerAlnum {c : Char} (h : isLowerAlnum c = true) :
    goIsSpace c = false := by
  have e1 : 'a'.val.toBitVec.toNat = 97 := rfl
  have e2 : '0'.val.toBitVec.toNat = 48 := rfl
  simp only [isLowerAlnum, Bool.or_eq_true, Bool.and_eq_true, decide_eq_true_eq,
    char_le_iff_toNat] at h
  cases hs : goIsSpace c with
  | false => rfl
  | true =>
    exfalso
    have h' : c = '\t' ∨ c = '\n' ∨ c = '\x0c' ∨ c = '\r' ∨ c = ' ' := by
      simpa [goIsSpace, or_assoc] using hs
    rcases h' with h' | h' | h' | h' | h' <;> subst h' <;> revert h <;> decide

lemma collapseWSAux_of_no_space {l : List Char}
    (h : ∀ c ∈ l, goIsSpace c = false) : ∀ b, collapseWSAux b l = l := by
  induction l with
  | nil => intro b; rfl
  | cons c cs ih =>
    intro b
    have hc : goIsSpace c = false := h c (List.mem_cons_self c cs)
    simp only [collapseWSAux, hc, Bool.false_eq_true, if_false]
    rw [ih (fun x hx => h x (List.mem_cons_of_mem c hx))]

lemma map_goToLower_eq_self {l : List Char}
    (h : ∀ c ∈ l, isLowerAlnum c = true) : l.map goToLower = l := by
  induction l with
  | nil => rfl
  | cons c cs ih =>
    simp only [List.map_cons, List.cons.injEq]
    exact ⟨goToLower_of_isLowerAlnum (h c (List.mem_cons_self c cs)),
      ih (fun x hx => h x (List.mem_cons_of_mem c hx))⟩

lemma dropWhile_hyphen_eq_self {l : List Char}
    (h : ∀ c ∈ l, c ≠ '-') : l.dropWhile (· = '-') = l := by
  cases l with
  | nil => rfl
  | cons c cs =>
    rw [List.dropWhile_cons]
    simp only [decide_eq_true_eq]
    rw [if_neg (h c (List.mem_cons_self c cs))]

lemma trimHyphens_eq_self {l : List Char}
    (h : ∀ c ∈ l, c ≠ '-') : trimHyphens l = l := by
  unfold trimHyphens
  rw [dropWhile_hyphen_eq_self h,
    dropWhile_hyphen_eq_self (fun c hc => h c (List.mem_reverse.mp hc)),
    List.reverse_reverse]

lemma mem_trimHyphens {c : Char} {l : List Char}
    (h : c ∈ trimHyphens l) : c ∈ l := by
  unfold trimHyphens at h
  rw [List.mem_reverse] at h
  have h2 := (List.dropWhile_sublist (l := (l.dropWhile (· = '-')).reverse)
    (p := (· = '-'))).mem h
  rw [List.mem_reverse] at h2
  exact (List.dropWhile_sublist (l := l) (p := (· = '-'))).mem h2

/-- Every character surviving `generateSlug` is lowercase alphanumeric
(shared by the hyphen-freeness and idempotence results). -/
lemma isLowerAlnum_of_mem_generateSlug {name : List Char} {c : Char}
    (h : c ∈ generateSlug name) : isLowerAlnum c = true := by
  unfold generateSlug at h
  have h2 := mem_trimHyphens h
  exact List.of_mem_filter h2

lemma generateSlug_fixed {l : List Char}
    (h : ∀ c ∈ l, isLowerAlnum c = true) : generateSlug l = l := by
  unfold generateSlug collapseWS
  rw [map_goToLower_eq_self h,
    collapseWSAux_of_no_space (fun c hc => not_goIsSpace_of_isLowerAlnum (h c hc)) false,
    stripNonAlnum, List.filter_eq_self.mpr h,
    trimHyphens_eq_self (fun c hc => by
      intro he
      subst he
      exact absurd (h _ hc) (by decide))]

/-! ### Claim theorems -/

/-- C1: the spec's slug algorithm keeps hyphens and promises
`slug("Iron Ore") = "iron-ore"`, but `generateSlug` deletes every match of
`[^a-z0-9]+` — hyphens included — after inserting them for whitespace, so
the code produces `"ironore"` on the name `"Iron Ore"`. This theorem
evaluates the embedded code at that failing input. -/
theorem generateSlug_ironOre :
    generateSlug "Iron Ore".toList = "ironore".toList ∧
      generateSlug "Iron Ore".toList ≠ "iron-ore".toList := by decide

/-- C7: the slug generator is idempotent — applying `generateSlug` to its
own output returns that output unchanged. -/
theorem generateSlug_idempotent (name : List Char) :
    generateSlug (generateSlug name) = generateSlug name :=
  generateSlug_fixed (fun _ hc => isLowerAlnum_of_mem_generateSlug hc)

/-- C8: every character of a generated slug is a lowercase ASCII letter or
digit; in particular a slug never contains a hyphen, because the
`[^a-z0-9]+` stripping pass removes the hyphens the whitespace pass
inserted. -/
theorem generateSlug_lowerAlnum (name : List Char) (c : Char)
    (hc : c ∈ generateSlug name) : isLowerAlnum c = true ∧ c ≠ '-' := by
  have h := isLowerAlnum_of_mem_generateSlug hc
  refine ⟨h, fun he => ?_⟩
  subst he
  exact absurd h (by decide)

/-- C8 witness: instantiated on the slug of `"Iron Ore"` at its first
character. -/
theorem generateSlug_lowerAlnum_witness : isLowerAlnum 'i' = true ∧ 'i' ≠ '-' :=
  generateSlug_lowerAlnum "Iron Ore".toList 'i' (by decide)

/-- C2: the whitelist inside the sort resolution lists `created_at` and
`updated_at` as sortable, but the sort string is split on every `'_'`, so
`"created_at_asc"` splits into three parts and never reaches the whitelist
check: the code silently falls back to the default `created_at DESC`
instead of sorting ascending (likewise `"updated_at_asc"`), while
single-word fields such as `name` work as specified. This theorem
evaluates the embedded code at those inputs. -/
theorem resolveSort_underscore_fields :
    resolveSort "created_at_asc".toList = ("created_at".toList, "DESC".toList) ∧
      resolveSort "updated_at_asc".toList = ("created_at".toList, "DESC".toList) ∧
      resolveSort "name_asc".toList = ("name".toList, "ASC".toList) ∧
      resolveSort "slug_desc".toList = ("slug".toList, "DESC".toList) := by decide

/-! ### Parser lemmas (for the C3/C5/C10 results) -/

lemma isOk_ok {e a : Type} (x : a) : (Except.ok x : Except e a).isOk = true := rfl

lemma isOk_error {e a : Type} (err : e) : (Except.error err : Except e a).isOk = false := rfl

lemma decodeIntField_ok_iff (q : Query) (key : List Char) (dflt : Int) :
    (decodeIntField q key dflt).isOk = true ↔
      ∀ v, lookupQ q key = some v → v ≠ [] → (goParseInt v).isSome = true := by
  unfold decodeIntField
  cases h : lookupQ q key with
  | none => simp [isOk_ok]
  | some v =>
    by_cases hv : v = []
    · subst hv
      simp [isOk_ok]
    · cases hgp : goParseInt v with
      | none =>
        simp only [if_neg hv, hgp, isOk_error]
        constructor
        · intro hfalse
          cases hfalse
        · intro hall
          have := hall v rfl hv
          rw [hgp] at this
          cases this
      | some n => simp [if_neg hv, hgp, isOk_ok]

lemma decodeItemFilters_ok_iff (q : Query) :
    (decodeItemFilters q).isOk = true ↔
      ∀ v, lookupQ q "is_raw_material".toList = some v → v ≠ [] →
        (goParseBool v).isSome = true := by
  unfold decodeItemFilters
  cases h : lookupQ q "is_raw_material".toList with
  | none => simp [isOk_ok]
  | some v =>
    by_cases hv : v = []
    · subst hv
      simp [isOk_ok]
    · cases hgp : goParseBool v with
      | none =>
        simp only [if_neg hv, hgp, isOk_error]
        constructor
        · intro hfalse
          cases hfalse
        · intro hall
          have := hall v rfl hv
          rw [hgp] at this
          cases this
      | some b => simp [if_neg hv, hgp, isOk_ok]

/-- Unpacks a successful decode: each component decoder succeeded with the
corresponding field of the result. -/
lemma rawParseListParams_eq {q : Query} {raw : RawParams}
    (h : rawParseListParams q = .ok raw) :
    decodeIntField q "page".toList DefaultPage = .ok raw.page ∧
      decodeIntField q "per_page".toList DefaultPerPage = .ok raw.perPage ∧
      raw.sort = decodeSortField q ∧
      decodeItemFilters q = .ok raw.filters := by
  unfold rawParseListParams at h
  cases hA : decodeIntField q "page".toList DefaultPage <;> rw [hA] at h
  case error e => cases h
  cases hB : decodeIntField q "per_page".toList DefaultPerPage <;> rw [hB] at h
  case error e => cases h
  cases hC : decodeItemFilters q <;> rw [hC] at h
  case error e => cases h
  injection h with h
  subst h
  exact ⟨rfl, rfl, rfl, rfl⟩

/-- Bounds established by the clamping block of `ParseListParams`. -/
lemma clampParams_bounds (raw : RawParams) :
    1 ≤ (clampParams raw).page ∧ 1 ≤ (clampParams raw).perPage ∧
      (clampParams raw).perPage ≤ 100 := by
  simp only [clampParams, DefaultPage, DefaultPerPage, MaxPerPage]
  refine ⟨?_, ?_, ?_⟩ <;> split_ifs <;> omega

/-- C3 counterexample: the claim says the parser never errors because of
the page value, but `page=abc` makes the base-parameter decode fail, so
`ParseListParams` returns an error. -/
theorem parseListParams_page_abc :
    parseListParams [("page".toList, "abc".toList)] = .error .baseDecode := rfl

/-- C3 (amended): the parser succeeds exactly when every supplied
non-empty value of a typed field converts — and that includes the integer
`page` and `per_page` fields, not just the boolean filter; absent fields
never cause an error (they fall back to their defaults). -/
theorem parseListParams_ok_iff (q : Query) :
    (parseListParams q).isOk = true ↔
      ((∀ v, lookupQ q "page".toList = some v → v ≠ [] →
          (goParseInt v).isSome = true) ∧
       (∀ v, lookupQ q "per_page".toList = some v → v ≠ [] →
          (goParseInt v).isSome = true) ∧
       (∀ v, lookupQ q "is_raw_material".toList = some v → v ≠ [] →
          (goParseBool v).isSome = true)) := by
  have hA := decodeIntField_ok_iff q "page".toList DefaultPage
  have hB := decodeIntField_ok_iff q "per_page".toList DefaultPerPage
  have hC := decodeItemFilters_ok_iff q
  rw [← hA, ← hB, ← hC]
  unfold parseListParams rawParseListParams
  cases decodeIntField q "page".toList DefaultPage <;>
    cases decodeIntField q "per_page".toList DefaultPerPage <;>
    cases decodeItemFilters q <;>
    simp [Except.map, Except.bind, isOk_ok, isOk_error, bind, pure, Except.pure]

/-- C3 witness: on the empty query the three convertibility conditions hold
vacuously, and the theorem yields a successful parse. -/
theorem parseListParams_ok_iff_witness : (parseListParams []).isOk = true :=
  (parseListParams_ok_iff []).mpr
    (by simp [lookupQ, queryValues])

/-- C5: after a successful decode, a page value that was absent or ≤ 0
yields page 1, a per_page value that was absent or ≤ 0 yields the default
15, and a per_page value greater than 100 is clamped to 100. -/
theorem parseListParams_defaults (q : Query) (raw : RawParams)
    (h : rawParseListParams q = .ok raw) :
    parseListParams q = .ok (clampParams raw) ∧
      (raw.page ≤ 0 → (clampParams raw).page = 1) ∧
      (raw.perPage ≤ 0 → (clampParams raw).perPage = 15) ∧
      (100 < raw.perPage → (clampParams raw).perPage = 100) ∧
      (lookupQ q "page".toList = none → (clampParams raw).page = 1) ∧
      (lookupQ q "per_page".toList = none → (clampParams raw).perPage = 15) := by
  obtain ⟨hA, hB, _, _⟩ := rawParseListParams_eq h
  refine ⟨by rw [parseListParams, h]; rfl, ?_, ?_, ?_, ?_, ?_⟩
  · intro hp
    simp only [clampParams, DefaultPage]
    rw [if_pos hp]
  · intro hp
    simp only [clampParams, DefaultPerPage]
    rw [if_pos hp]
  · intro hp
    simp only [clampParams, DefaultPerPage, MaxPerPage]
    rw [if_neg (by omega), if_pos (by omega)]
  · intro hnone
    rw [decodeIntField, hnone] at hA
    injection hA with hA
    simp only [clampParams, DefaultPage, ← hA]
    rfl
  · intro hnone
    rw [decodeIntField, hnone] at hB
    injection hB with hB
    simp only [clampParams, DefaultPerPage, ← hB]
    rfl

/-- C5 witness: instantiated on the query `per_page=200&page=0`. -/
theorem parseListParams_defaults_witness :
    parseListParams [("per_page".toList, "200".toList), ("page".toList, "0".toList)] =
        .ok (clampParams ⟨0, 200, [], ⟨none, none⟩⟩) ∧
      ((0 : Int) ≤ 0 → (clampParams ⟨0, 200, [], ⟨none, none⟩⟩).page = 1) ∧
      ((200 : Int) ≤ 0 → (clampParams ⟨0, 200, [], ⟨none, none⟩⟩).perPage = 15) ∧
      ((100 : Int) < 200 → (clampParams ⟨0, 200, [], ⟨none, none⟩⟩).perPage = 100) ∧
      (lookupQ [("per_page".toList, "200".toList), ("page".toList, "0".toList)]
          "page".toList = none →
        (clampParams ⟨0, 200, [], ⟨none, none⟩⟩).page = 1) ∧
      (lookupQ [("per_page".toList, "200".toList), ("page".toList, "0".toList)]
          "per_page".toList = none →
        (clampParams ⟨0, 200, [], ⟨none, none⟩⟩).perPage = 15) :=
  parseListParams_defaults
    [("per_page".toList, "200".toList), ("page".toList, "0".toList)]
    ⟨0, 200, [], ⟨none, none⟩⟩ rfl

lemma wrap64_eq_self {x : Int} (h0 : 0 ≤ x) (h1 : x < 9223372036854775808) :
    wrap64 x = x := by
  unfold wrap64
  omega

/-- C10 counterexample: the offset computation is not always ≥ 0. The page
value 9223372036854775807 (max int64) parses successfully and is not
clamped from above, and with the clamped per_page of 100 the store's
64-bit multiplication `(page-1)*perPage` wraps to -200. -/
theorem parseListParams_offset_wraps :
    parseListParams [("page".toList, "9223372036854775807".toList),
        ("per_page".toList, "200".toList)] =
      .ok ⟨9223372036854775807, 100, [], ⟨none, none⟩⟩ ∧
      storeOffsetInt 9223372036854775807 100 = -200 := ⟨rfl, rfl⟩

/-- C10 (amended): a successful parse always yields `page ≥ 1` and
`1 ≤ perPage ≤ 100`, so the store's limit `perPage` is positive; and the
offset `(page-1)*perPage`, computed in 64-bit `int` arithmetic, equals the
exact product — and is therefore ≥ 0 — whenever that product is within
the int64 range, the wrap at extreme pages being the only exception. -/
theorem parseListParams_invariant (q : Query) (p : ListParams)
    (h : parseListParams q = .ok p) :
    1 ≤ p.page ∧ 1 ≤ p.perPage ∧ p.perPage ≤ 100 ∧ 0 < p.perPage ∧
      ((p.page - 1) * p.perPage < 9223372036854775808 →
        storeOffsetInt p.page p.perPage = (p.page - 1) * p.perPage ∧
        0 ≤ storeOffsetInt p.page p.perPage) := by
  rw [parseListParams] at h
  cases hr : rawParseListParams q <;> rw [hr] at h
  case error e => cases h
  case ok raw =>
    injection h with h
    subst h
    obtain ⟨h1, h2, h3⟩ := clampParams_bounds raw
    refine ⟨h1, h2, h3, by omega, ?_⟩
    intro hlt
    have ha : 0 ≤ (clampParams raw).page - 1 := by omega
    have hb : (clampParams raw).page - 1 ≤
        ((clampParams raw).page - 1) * (clampParams raw).perPage := by
      calc (clampParams raw).page - 1 = ((clampParams raw).page - 1) * 1 := by ring
        _ ≤ ((clampParams raw).page - 1) * (clampParams raw).perPage :=
          mul_le_mul_of_nonneg_left h2 ha
    have hprod0 : 0 ≤ ((clampParams raw).page - 1) * (clampParams raw).perPage :=
      mul_nonneg ha (by omega)
    have heq : storeOffsetInt (clampParams raw).page (clampParams raw).perPage =
        ((clampParams raw).page - 1) * (clampParams raw).perPage := by
      unfold storeOffsetInt
      rw [wrap64_eq_self ha (by omega)]
      exact wrap64_eq_self hprod0 hlt
    exact ⟨heq, heq ▸ hprod0⟩

lemma normPerPage_pos (perPage : Int) : 0 < normPerPage perPage := by
  simp only [normPerPage, DefaultPerPage, MaxPerPage]
  split_ifs <;> omega

/-- C4: whenever `total > 0` the builder's `lastPage` is
`ceil(total / perPage)` with `perPage` normalized; when `total = 0` the
`lastPage` is 1 exactly when the normalized requested page is 1, and 0
otherwise; and a normalized page exceeding a positive `lastPage` is
clamped down to `lastPage` in the returned `currentPage`. -/
theorem newPaginatedResponse_meta (dataLen : Nat) (total page perPage : Int)
    (ht : 0 ≤ total) :
    (0 < total →
      (newPaginatedResponse dataLen total page perPage).lastPage =
        goCeilDiv total (normPerPage perPage)) ∧
    (total = 0 → normPage page = 1 →
      (newPaginatedResponse dataLen total page perPage).lastPage = 1) ∧
    (total = 0 → normPage page ≠ 1 →
      (newPaginatedResponse dataLen total page perPage).lastPage = 0) ∧
    (0 < (newPaginatedResponse dataLen total page perPage).lastPage →
      (newPaginatedResponse dataLen total page perPage).lastPage < normPage page →
      (newPaginatedResponse dataLen total page perPage).currentPage =
        (newPaginatedResponse dataLen total page perPage).lastPage) := by
  have hpp := normPerPage_pos perPage
  refine ⟨?_, ?_, ?_, ?_⟩
  · intro h0
    simp [newPaginatedResponse, h0, hpp]
  · intro h0 h1
    simp [newPaginatedResponse, h0, h1]
  · intro h0 h1
    simp [newPaginatedResponse, h0, h1]
  · intro h1 h2
    simp only [newPaginatedResponse] at h1 h2 ⊢
    rw [if_pos ⟨by omega, h1⟩]

/-- C4 witness: instantiated at `dataLen = 0`, `total = 5`, `page = 1`,
`perPage = 2`. -/
theorem newPaginatedResponse_meta_witness :
    ((0 : Int) < 5 →
      (newPaginatedResponse 0 5 1 2).lastPage = goCeilDiv 5 (normPerPage 2)) ∧
    ((5 : Int) = 0 → normPage 1 = 1 → (newPaginatedResponse 0 5 1 2).lastPage = 1) ∧
    ((5 : Int) = 0 → normPage 1 ≠ 1 → (newPaginatedResponse 0 5 1 2).lastPage = 0) ∧
    (0 < (newPaginatedResponse 0 5 1 2).lastPage →
      (newPaginatedResponse 0 5 1 2).lastPage < normPage 1 →
      (newPaginatedResponse 0 5 1 2).currentPage =
        (newPaginatedResponse 0 5 1 2).lastPage) :=
  newPaginatedResponse_meta 0 5 1 2 (by decide)

/-- C10 witness: instantiated on the empty query. -/
theorem parseListParams_invariant_witness :
    1 ≤ (⟨1, 15, [], ⟨none, none⟩⟩ : ListParams).page ∧
      1 ≤ (⟨1, 15, [], ⟨none, none⟩⟩ : ListParams).perPage ∧
      (⟨1, 15, [], ⟨none, none⟩⟩ : ListParams).perPage ≤ 100 ∧
      0 < (⟨1, 15, [], ⟨none, none⟩⟩ : ListParams).perPage ∧
      (((⟨1, 15, [], ⟨none, none⟩⟩ : ListParams).page - 1) *
          (⟨1, 15, [], ⟨none, none⟩⟩ : ListParams).perPage < 9223372036854775808 →
        storeOffsetInt (⟨1, 15, [], ⟨none, none⟩⟩ : ListParams).page
            (⟨1, 15, [], ⟨none, none⟩⟩ : ListParams).perPage =
          ((⟨1, 15, [], ⟨none, none⟩⟩ : ListParams).page - 1) *
            (⟨1, 15, [], ⟨none, none⟩⟩ : ListParams).perPage ∧
        0 ≤ storeOffsetInt (⟨1, 15, [], ⟨none, none⟩⟩ : ListParams).page
          (⟨1, 15, [], ⟨none, none⟩⟩ : ListParams).perPage) :=
  parseListParams_invariant [] ⟨1, 15, [], ⟨none, none⟩⟩ rfl

/-- C6: when no supplied field of the update request differs from the
stored item's current value, the service skips the store's update entirely
and returns the existing item itself — timestamps included. -/
theorem updateItem_noChange (existing : Item) (req : UpdateItemRequest)
    (hn : ∀ n, req.name = some n → n = existing.name)
    (hb : ∀ b, req.isRawMaterial = some b → b = existing.isRawMaterial)
    (hd : req.description = existing.description)
    (hi : req.imageURL = existing.imageURL) :
    updateItemService existing req = .noWrite existing := by
  unfold updateItemService mergeItem
  cases hn' : req.name with
  | some n =>
    have := hn n hn'
    subst this
    simp only [ne_eq, not_true_eq_false, if_false, ite_self]
    cases hb' : req.isRawMaterial with
    | some b =>
      have := hb b hb'
      subst this
      simp [hd, hi]
    | none => simp [hd, hi]
  | none =>
    cases hb' : req.isRawMaterial with
    | some b =>
      have := hb b hb'
      subst this
      simp [hd, hi]
    | none => simp [hd, hi]

/-- C6 witness: a request repeating every current value of a concrete item
issues no write. -/
theorem updateItem_noChange_witness :
    updateItemService
        ⟨7, "Iron Ore".toList, "ironore".toList, true, ⟨"d".toList, true⟩,
          ⟨[], false⟩, 11, 22⟩
        ⟨some "Iron Ore".toList, some true, ⟨"d".toList, true⟩, ⟨[], false⟩⟩ =
      .noWrite ⟨7, "Iron Ore".toList, "ironore".toList, true,
        ⟨"d".toList, true⟩, ⟨[], false⟩, 11, 22⟩ :=
  updateItem_noChange _ _
    (by intro n h; injection h with h; exact h.symm)
    (by intro b h; injection h with h; exact h.symm)
    rfl rfl

/-- C9: a JSON body that omits a nullable field decodes to the
`JSONNullString` zero value, which is exactly what explicit JSON `null`
unmarshals to; consequently, an update request omitting `description`
(while changing nothing else) makes the service overwrite a currently
non-null stored description with null, via a store write. -/
theorem updateItem_clearsOmittedDescription (existing : Item)
    (req : UpdateItemRequest)
    (hvalid : existing.description.valid = true)
    (hname : req.name = none) (hraw : req.isRawMaterial = none)
    (hdesc : req.description = jsonNullStringZero)
    (himg : req.imageURL = existing.imageURL) :
    unmarshalJSONNullString .null = .ok jsonNullStringZero ∧
      updateItemService existing req =
        .write { existing with description := jsonNullStringZero } := by
  refine ⟨rfl, ?_⟩
  have hne : req.description ≠ existing.description := by
    rw [hdesc]
    intro h
    have := congrArg NullString.valid h
    rw [hvalid] at this
    cases this
  unfold updateItemService mergeItem
  rw [hname, hraw]
  simp only [ne_eq, hne, not_false_eq_true, if_true, if_pos hne]
  rw [hdesc, himg]
  simp

/-- C9 witness: instantiated on a concrete item with a non-null description
and the decoded form of a body omitting `description`. -/
theorem updateItem_clearsOmittedDescription_witness :
    unmarshalJSONNullString .null = .ok jsonNullStringZero ∧
      updateItemService
          ⟨7, "Iron Ore".toList, "ironore".toList, true, ⟨"d".toList, true⟩,
            ⟨[], false⟩, 11, 22⟩
          ⟨none, none, jsonNullStringZero, ⟨[], false⟩⟩ =
        .write { (⟨7, "Iron Ore".toList, "ironore".toList, true,
            ⟨"d".toList, true⟩, ⟨[], false⟩, 11, 22⟩ : Item) with
          description := jsonNullStringZero } :=
  updateItem_clearsOmittedDescription _ _ rfl rfl rfl rfl rfl

end CraftingApi
